import Mathlib

/-!
Shallow embedding of the feeder repository (a Feedly article extractor) in
Lean 4, together with theorems settling the frozen claims about its
specification.  Each definition is transcribed from the Python source under
src/src/feedly_extractor/; file and line references are given next to the
corresponding definitions.
-/

set_option maxHeartbeats 1000000

/-! ## Configuration constants (config.py, class Config) -/

/-- config.py line 19: RATE_LIMIT_DELAY = 60 (seconds to wait when rate limited). -/
def RATE_LIMIT_DELAY : Nat := 60

/-- config.py line 22: SAFE_ARTICLE_LIMIT = 5000 (safety ceiling of the pagination loop). -/
def SAFE_ARTICLE_LIMIT : Nat := 5000

/-- config.py line 28: DEFAULT_DAYS_BACK = 7. -/
def DEFAULT_DAYS_BACK : Nat := 7

/-! ## String helpers mirroring Python builtins -/

/-- Python substring containment, as in the expression
"category_name.lower() in cat.label.lower()" (client.py line 125):
true when needle occurs as a contiguous substring of hay. -/
def str_in (needle hay : String) : Bool :=
  (List.range (hay.length + 1)).any (fun i => needle.data.isPrefixOf (hay.data.drop i))

/-- Scanner behind py_split_ws: walk the characters, accumulating the
current token in reverse; whitespace closes the token, and empty tokens
are dropped. -/
def py_split_ws_go : List Char → List Char → List String
  | [], cur => if cur = [] then [] else [String.mk cur.reverse]
  | c :: rest, cur =>
      if c.isWhitespace then
        if cur = [] then py_split_ws_go rest []
        else String.mk cur.reverse :: py_split_ws_go rest []
      else py_split_ws_go rest (c :: cur)

/-- Python str.split() with no argument (used for word counts, models.py line 79):
split on runs of whitespace, discarding empty tokens. -/
def py_split_ws (s : String) : List String :=
  py_split_ws_go s.data []

/-- Python str.lower(), character by character (ASCII case mapping). -/
def py_lower (s : String) : String :=
  String.mk (s.data.map Char.toLower)

/-- Python str.strip() with no argument: remove leading and trailing
whitespace. -/
def py_strip (s : String) : String :=
  String.mk (((s.data.dropWhile Char.isWhitespace).reverse.dropWhile
    Char.isWhitespace).reverse)

/-- Truthiness of a Python Optional[str]: None and the empty string are falsy. -/
def py_truthy_str : Option String → Bool
  | some s => s ≠ ""
  | none => false

/-! ## Category (models.py lines 107-120) -/

/-- models.py lines 107-112: a Feedly category/folder, an identifier plus a label. -/
structure Category where
  id : String
  label : String
deriving DecidableEq

/-- client.py lines 114-128, FeedlyClient.find_category_by_name: first try an
exact case-insensitive label match over the fetched categories, then a
case-insensitive substring match, in listing order; otherwise None.  The
categories argument stands for the list returned by get_categories(). -/
def find_category_by_name (categories : List Category) (category_name : String) :
    Option Category :=
  match categories.find? (fun cat => py_lower category_name == py_lower cat.label) with
  | some cat => some cat
  | none =>
      categories.find? (fun cat => str_in (py_lower category_name) (py_lower cat.label))

/-! ## HTML stripping (utils.py lines 9-39) -/

/-- Character scan of utils.py HTMLStripper: collect the data characters that
lie outside angle-bracket tags.  The stdlib parser additionally converts
character references and handles exotic markup; on plain tagged text (the
inputs the claims exercise) it emits exactly the characters outside tags,
which is what this function computes.  The regex fallback re.sub of the
pattern matching angle-bracket groups agrees on such inputs. -/
def strip_tags_chars : List Char → Bool → List Char
  | [], _ => []
  | c :: rest, inTag =>
      if inTag then
        if c = '>' then strip_tags_chars rest false else strip_tags_chars rest true
      else
        if c = '<' then strip_tags_chars rest true
        else c :: strip_tags_chars rest false

/-- utils.py lines 26-39, strip_html_tags: empty input maps to the empty
string; otherwise drop the tags and strip surrounding whitespace
(Python str.strip of the joined data, modelled by py_strip). -/
def strip_html_tags (html : String) : String :=
  if html = "" then ""
  else py_strip (String.mk (strip_tags_chars html.data false))

/-! ## Article (models.py lines 8-104) -/

/-- models.py lines 8-30: the Article dataclass with its 19 declared fields,
in declaration order. -/
structure Article where
  id : String
  title : String
  url : String
  author : String
  published_date : String
  crawled_date : String
  source_title : String
  source_url : String
  source_stream_id : String
  summary : String
  content : String
  engagement : Int
  language : String
  keywords : String
  categories : String
  tags : String
  read : Bool
  visual_url : String
  word_count : Nat
deriving DecidableEq

/-- A link object inside the raw item's alternate array. -/
structure LinkObj where
  href : Option String := none
deriving DecidableEq

/-- The raw item's origin object. -/
structure OriginObj where
  title : Option String := none
  htmlUrl : Option String := none
  streamId : Option String := none
deriving DecidableEq

/-- A raw object carrying a content string (summary and content fields). -/
structure ContentObj where
  content : Option String := none
deriving DecidableEq

/-- A raw object carrying a label (categories and tags entries). -/
structure LabelObj where
  label : Option String := none
deriving DecidableEq

/-- The raw item's visual object. -/
structure VisualObj where
  url : Option String := none
deriving DecidableEq

/-- The JSON shape of one remote item as read by Article.from_feedly_data:
every field the constructor looks at, each optional since the code uses
dict.get with a default throughout. -/
structure RawItem where
  id : Option String := none
  title : Option String := none
  canonicalUrl : Option String := none
  alternate : Option (List LinkObj) := none
  author : Option String := none
  published : Option Int := none
  crawled : Option Int := none
  origin : Option OriginObj := none
  summary : Option ContentObj := none
  content : Option ContentObj := none
  engagement : Option Int := none
  language : Option String := none
  keywords : Option (List String) := none
  categories : Option (List LabelObj) := none
  tags : Option (List LabelObj) := none
  unread : Option Bool := none
  visual : Option VisualObj := none
deriving DecidableEq

/-- models.py lines 32-80, Article.from_feedly_data.  The parameter
isoOfMillis stands for the composition
datetime.fromtimestamp(ms / 1000).isoformat(), which depends on the local
timezone; the embedding is parametric in it.  All other steps are
transcribed literally: the canonical-URL-with-alternate fallback, the
falsy-zero timestamp checks, tag stripping of title, summary and content,
comma-joined keyword, category and tag lists, the unread-defaults-to-True
negation, and the word count of the cleaned content. -/
def Article.from_feedly_data (isoOfMillis : Int → String) (data : RawItem) : Article :=
  let url0 := data.canonicalUrl.getD ""
  let url :=
    if url0 = "" then
      match data.alternate with
      | some (first :: _) => first.href.getD ""
      | _ => url0
    else url0
  let published := data.published.getD 0
  let published_date := if published = 0 then "" else isoOfMillis published
  let crawled := data.crawled.getD 0
  let crawled_date := if crawled = 0 then "" else isoOfMillis crawled
  let summary := strip_html_tags ((data.summary.bind ContentObj.content).getD "")
  let content := strip_html_tags ((data.content.bind ContentObj.content).getD "")
  { id := data.id.getD ""
    title := strip_html_tags (data.title.getD "")
    url := url
    author := data.author.getD ""
    published_date := published_date
    crawled_date := crawled_date
    source_title := ((data.origin.bind OriginObj.title).getD "")
    source_url := ((data.origin.bind OriginObj.htmlUrl).getD "")
    source_stream_id := ((data.origin.bind OriginObj.streamId).getD "")
    summary := summary
    content := content
    engagement := data.engagement.getD 0
    language := data.language.getD ""
    keywords := String.intercalate (", ") (data.keywords.getD [])
    categories := String.intercalate (", ")
      ((data.categories.getD []).map (fun cat => cat.label.getD ""))
    tags := String.intercalate (", ")
      ((data.tags.getD []).map (fun tag => tag.label.getD ""))
    read := (data.unread.getD true) == false
    visual_url := ((data.visual.bind VisualObj.url).getD "")
    word_count := if content = "" then 0 else (py_split_ws content).length }

/-- The value type of the export dictionary: Python str, int and bool. -/
inductive Value where
  | s (v : String)
  | i (v : Int)
  | n (v : Nat)
  | b (v : Bool)
deriving DecidableEq

/-- models.py lines 82-104, Article.to_dict: the hand-written export
dictionary, as an association list in the insertion order of the source. -/
def Article.to_dict (a : Article) : List (String × Value) :=
  [ ("id", .s a.id)
  , ("title", .s a.title)
  , ("url", .s a.url)
  , ("author", .s a.author)
  , ("published_date", .s a.published_date)
  , ("crawled_date", .s a.crawled_date)
  , ("source_title", .s a.source_title)
  , ("source_url", .s a.source_url)
  , ("source_stream_id", .s a.source_stream_id)
  , ("summary", .s a.summary)
  , ("content", .s a.content)
  , ("engagement", .i a.engagement)
  , ("language", .s a.language)
  , ("keywords", .s a.keywords)
  , ("categories", .s a.categories)
  , ("tags", .s a.tags)
  , ("read", .b a.read)
  , ("visual_url", .s a.visual_url)
  , ("word_count", .n a.word_count) ]

/-- The 19 attribute names of the Article dataclass, in declaration order
(models.py lines 12-30). -/
def article_field_names : List String :=
  [ "id", "title", "url", "author", "published_date", "crawled_date",
    "source_title", "source_url", "source_stream_id", "summary", "content",
    "engagement", "language", "keywords", "categories", "tags", "read",
    "visual_url", "word_count" ]

/-- Python getattr on an Article for the declared attribute names,
wrapped in the export value type. -/
def Article.attr (a : Article) (name : String) : Value :=
  if name = "id" then .s a.id
  else if name = "title" then .s a.title
  else if name = "url" then .s a.url
  else if name = "author" then .s a.author
  else if name = "published_date" then .s a.published_date
  else if name = "crawled_date" then .s a.crawled_date
  else if name = "source_title" then .s a.source_title
  else if name = "source_url" then .s a.source_url
  else if name = "source_stream_id" then .s a.source_stream_id
  else if name = "summary" then .s a.summary
  else if name = "content" then .s a.content
  else if name = "engagement" then .i a.engagement
  else if name = "language" then .s a.language
  else if name = "keywords" then .s a.keywords
  else if name = "categories" then .s a.categories
  else if name = "tags" then .s a.tags
  else if name = "read" then .b a.read
  else if name = "visual_url" then .s a.visual_url
  else if name = "word_count" then .n a.word_count
  else .s ""

/-! ## Date utilities (utils.py lines 42-87) -/

/-- Gregorian leap-year rule, as implemented by Python's datetime. -/
def is_leap (y : Nat) : Bool :=
  (y % 4 = 0 && y % 100 ≠ 0) || y % 400 = 0

/-- Length of month m (1-12) of year y. -/
def days_in_month (y m : Nat) : Nat :=
  if m = 2 then (if is_leap y then 29 else 28)
  else if m = 4 ∨ m = 6 ∨ m = 9 ∨ m = 11 then 30
  else 31

/-- Days in the proleptic Gregorian years 0, 1, ..., y-1. -/
def days_before_year (y : Nat) : Nat :=
  365 * y + (y + 3) / 4 - (y + 99) / 100 + (y + 399) / 400

/-- Days in the months of year y strictly before month m. -/
def days_before_month (y m : Nat) : Nat :=
  (((List.range (m - 1)).map (fun i => days_in_month y (i + 1))).sum)

/-- Day number of the civil date y-m-d counted from 0000-01-01. -/
def civil_days (y m d : Nat) : Nat :=
  days_before_year y + days_before_month y m + (d - 1)

/-- Decimal digits to a natural number. -/
def digits_to_nat (cs : List Char) : Nat :=
  cs.foldl (fun a c => a * 10 + (c.toNat - ('0').toNat)) 0

/-- Splitting a character list on the dash character, keeping empty
groups, as Python str.split("-") would. -/
def split_dash : List Char → List Char → List String
  | [], cur => [String.mk cur.reverse]
  | c :: rest, cur =>
      if c = '-' then String.mk cur.reverse :: split_dash rest []
      else split_dash rest (c :: cur)

/-- The date syntax accepted by datetime.strptime with format Y-m-d:
three dash-separated all-digit groups of at most 4, 2 and 2 digits, whose
month lies in 1-12 and whose day exists in that month. -/
def parse_ymd (s : String) : Option (Nat × Nat × Nat) :=
  match split_dash s.data [] with
  | [ys, ms, ds] =>
      if ys ≠ "" ∧ ys.length ≤ 4 ∧ ys.data.all Char.isDigit ∧
         ms ≠ "" ∧ ms.length ≤ 2 ∧ ms.data.all Char.isDigit ∧
         ds ≠ "" ∧ ds.length ≤ 2 ∧ ds.data.all Char.isDigit then
        let y := digits_to_nat ys.data
        let m := digits_to_nat ms.data
        let d := digits_to_nat ds.data
        if 1 ≤ m ∧ m ≤ 12 ∧ 1 ≤ d ∧ d ≤ days_in_month y m then some (y, m, d)
        else none
      else none
  | _ => none

/-- utils.py lines 49-55, get_timestamp_from_date: parse a YYYY-MM-DD string
and convert it to epoch milliseconds of that day's midnight, or raise
ValueError with the exact source message.  strptime yields naive local
midnight and timestamp() subtracts the fixed local UTC offset; the
embedding takes offset zero, which preserves the ordering of all dates. -/
def get_timestamp_from_date (date_str : String) : Except String Int :=
  match parse_ymd date_str with
  | some (y, m, d) =>
      .ok (((civil_days y m d : Int) - (civil_days 1970 1 1 : Int)) * 86400000)
  | none =>
      .error ("Invalid date format: " ++ date_str ++ ". Use YYYY-MM-DD format.")

/-- utils.py lines 42-46, get_timestamp_from_days_ago: now minus the given
number of days, in epoch milliseconds; nowMs models datetime.now(). -/
def get_timestamp_from_days_ago (days : Nat) (nowMs : Int) : Int :=
  nowMs - (days : Int) * 86400000

/-- utils.py lines 58-87, validate_date_range: determine newer_than from the
start date (or the days_back count, Python-falsy zero replaced by
DEFAULT_DAYS_BACK), then older_than from the end date, raising
"End date must be after start date" when older_than <= newer_than.  The
oversized-range branch only prints a warning and is not modelled. -/
def validate_date_range (start_date end_date : Option String) (days_back : Nat)
    (nowMs : Int) : Except String (Int × Option Int) :=
  let newerE : Except String Int :=
    if py_truthy_str start_date then get_timestamp_from_date (start_date.getD "")
    else
      .ok (get_timestamp_from_days_ago
        (if days_back = 0 then DEFAULT_DAYS_BACK else days_back) nowMs)
  match newerE with
  | .error e => .error e
  | .ok newer_than =>
      if py_truthy_str end_date then
        match get_timestamp_from_date (end_date.getD "") with
        | .error e => .error e
        | .ok older_than =>
            if older_than ≤ newer_than then
              .error ("End date must be after start date")
            else .ok (newer_than, some older_than)
      else .ok (newer_than, none)

/-! ## HTTP session wrapper (client.py lines 51-70) -/

/-- Outcome of one call of session.request (library-level retry already
absorbed inside the session): either a success or an HTTPError raised by
raise_for_status with the given status code. -/
inductive ReqOut where
  | success
  | httpFail (status : Nat)
deriving DecidableEq

/-- Result of FeedlyClient._make_request as observed by its caller. -/
inductive MROut where
  | ok (attempt : Nat)
  | raised (status : Nat)
  | noResponse
deriving DecidableEq

/-- Trace of one _make_request call: its outcome, how many times
session.request was issued, and the sleeps performed (in seconds). -/
structure MRes where
  out : MROut
  attempts : Nat
  sleeps : List Nat
deriving DecidableEq

/-- client.py lines 51-70, FeedlyClient._make_request: issue the request;
on HTTPError 401 log and re-raise; on 429 sleep RATE_LIMIT_DELAY seconds
and re-issue the same request exactly once, propagating whatever the
second attempt does; on any other HTTPError re-raise.  The argument lists
the successive outcomes the session would produce; noResponse marks the
model running out of scripted outcomes. -/
def make_request : List ReqOut → MRes
  | [] => ⟨.noResponse, 0, []⟩
  | .success :: _ => ⟨.ok 1, 1, []⟩
  | .httpFail s :: rest =>
      if s = 401 then ⟨.raised 401, 1, []⟩
      else if s = 429 then
        match rest with
        | [] => ⟨.noResponse, 1, [RATE_LIMIT_DELAY]⟩
        | .success :: _ => ⟨.ok 2, 2, [RATE_LIMIT_DELAY]⟩
        | .httpFail s2 :: _ => ⟨.raised s2, 2, [RATE_LIMIT_DELAY]⟩
      else ⟨.raised s, 1, []⟩

/-! ## Progressive saver, JSON part (file_handlers.py lines 115-195) -/

/-- Tokens of the hand-assembled JSON stream: the opening bracket written at
initialization, a comma separator, one serialized object per article, and
the closing bracket written at finalize. -/
inductive JTok where
  | arrStart
  | sep
  | obj (fields : List (String × Value))
  | arrEnd
deriving DecidableEq

/-- State of a ProgressiveSaver restricted to its JSON output: whether a
JSON file is configured (output_format in all or json), the token stream
written to it so far, and saved_count.  The CSV and URL files receive
independent appends and do not influence the JSON stream. -/
structure SaverState where
  json_active : Bool
  json_file : List JTok
  saved_count : Nat
deriving DecidableEq

/-- file_handlers.py lines 118-143: construction plus _initialize_files.
When the JSON format is selected the file is truncated and the opening
bracket is written; saved_count starts at zero. -/
def saver_init (output_format : String) : SaverState :=
  let active := output_format == "all" || output_format == "json"
  { json_active := active
    json_file := if active then [JTok.arrStart] else []
    saved_count := 0 }

/-- The for-loop of _append_to_json (file_handlers.py lines 170-174):
for index i, write a separator when saved_count is positive or i is
positive, then dump the article's dictionary. -/
def append_json_go (saved_count : Nat) (i : Nat) : List Article → List JTok
  | [] => []
  | a :: rest =>
      (if saved_count > 0 || i > 0 then [JTok.sep] else []) ++
        JTok.obj (Article.to_dict a) :: append_json_go saved_count (i + 1) rest

/-- file_handlers.py lines 168-174, _append_to_json starting at i = 0. -/
def append_json (saved_count : Nat) (articles : List Article) : List JTok :=
  append_json_go saved_count 0 articles

/-- file_handlers.py lines 145-166, save_batch: an empty batch returns
immediately; otherwise the batch is appended to each configured file (only
the JSON stream is tracked here) and saved_count grows by the batch size. -/
def save_batch (st : SaverState) (articles : List Article) : SaverState :=
  if articles = [] then st
  else
    { st with
      json_file :=
        if st.json_active then st.json_file ++ append_json st.saved_count articles
        else st.json_file
      saved_count := st.saved_count + articles.length }

/-- file_handlers.py lines 176-190, finalize: the closing bracket is written
only when a JSON file is configured and saved_count is positive. -/
def saver_finalize (st : SaverState) : SaverState :=
  if st.json_active && decide (0 < st.saved_count) then
    { st with json_file := st.json_file ++ [JTok.arrEnd] }
  else st

/-- A separator followed by an object, for each article in turn. -/
def sep_objs (articles : List Article) : List JTok :=
  (articles.map (fun a => [JTok.sep, JTok.obj (Article.to_dict a)])).flatten

/-- Comma-separated object list: nothing for no articles, otherwise the
first object followed by separator-object pairs. -/
def with_seps : List Article → List JTok
  | [] => []
  | a :: rest => JTok.obj (Article.to_dict a) :: sep_objs rest

/-- The token stream of a well-formed JSON array holding exactly the given
articles: opening bracket, comma-separated objects, closing bracket. -/
def wf_json_array (articles : List Article) : List JTok :=
  JTok.arrStart :: (with_seps articles ++ [JTok.arrEnd])

/-! ## Pagination driver (extractor.py lines 22-157) -/

/-- One response of the streams/contents endpoint as consumed by the loop:
either a page with its item array and the presence of a continuation
token, or an HTTPError with a status code raised by the client. -/
inductive Response where
  | page (items : List RawItem) (cont : Bool)
  | httpErr (status : Nat)
deriving DecidableEq

/-- What the pagination loop of get_articles produced. -/
inductive GAOutcome where
  | articles (l : List Article)
  | valueError (msg : String)
  | httpRaised (status : Nat)
  | noResponse
deriving DecidableEq

/-- Observable result of the loop: outcome, number of stream-content
requests issued, batches handed to the progressive saver, and whether
ProgressiveSaver.finalize was invoked. -/
structure LoopRes where
  out : GAOutcome
  reqs : Nat
  batches : List (List Article)
  fin : Bool
deriving DecidableEq

/-- The Python truthiness test and comparison of extractor.py line 95:
"options.max_articles and len(all_articles) >= options.max_articles".
None and zero are falsy, so the cap only fires for a positive cap that the
accumulator has reached. -/
def cap_hit (max_articles : Option Nat) (len : Nat) : Bool :=
  match max_articles with
  | none => false
  | some n => decide (0 < n) && decide (n ≤ len)

/-- The batch conversion of extractor.py line 87: every raw item of the
page mapped through Article.from_feedly_data. -/
def ga_batch (isoOfMillis : Int → String) (items : List RawItem) : List Article :=
  items.map (Article.from_feedly_data isoOfMillis)

/-- Recording of one save_batch call on the progressive saver
(extractor.py lines 91-92), when the saver is active. -/
def ga_record (saverOn : Bool) (bs : List (List Article))
    (batch : List Article) : List (List Article) :=
  if saverOn then bs ++ [batch] else bs

/-- extractor.py lines 56-122, the while-loop of get_articles.  Each
iteration issues one stream-content request and consumes the next scripted
response.  An HTTPError 401 or 429 returns the accumulated list at once
(finalize is skipped on these paths); any other HTTPError propagates.  A
page with no items ends the stream.  Otherwise the batch is converted with
ga_batch, appended to the accumulator and, when the saver is active,
handed to save_batch (tracked by ga_record); then the explicit cap
(truncating to exactly the cap) and the safety ceiling
SAFE_ARTICLE_LIMIT (no truncation) are checked in that order, and an
absent continuation token ends the stream.  The sleeps between pages do
not affect the result and are not tracked. -/
def ga_loop (isoOfMillis : Int → String) (max_articles : Option Nat)
    (saverOn : Bool) : List Response → List Article → List (List Article) →
    Nat → LoopRes
  | [], _acc, bs, reqs => ⟨.noResponse, reqs, bs, false⟩
  | .httpErr s :: _rest, acc, bs, reqs =>
      if s = 401 then ⟨.articles acc, reqs + 1, bs, false⟩
      else if s = 429 then ⟨.articles acc, reqs + 1, bs, false⟩
      else ⟨.httpRaised s, reqs + 1, bs, false⟩
  | .page items cont :: rest, acc, bs, reqs =>
      if items = [] then ⟨.articles acc, reqs + 1, bs, saverOn⟩
      else if cap_hit max_articles (acc ++ ga_batch isoOfMillis items).length then
        ⟨.articles ((acc ++ ga_batch isoOfMillis items).take (max_articles.getD 0)),
          reqs + 1, ga_record saverOn bs (ga_batch isoOfMillis items), saverOn⟩
      else if SAFE_ARTICLE_LIMIT ≤ (acc ++ ga_batch isoOfMillis items).length then
        ⟨.articles (acc ++ ga_batch isoOfMillis items), reqs + 1,
          ga_record saverOn bs (ga_batch isoOfMillis items), saverOn⟩
      else if cont then
        ga_loop isoOfMillis max_articles saverOn rest
          (acc ++ ga_batch isoOfMillis items)
          (ga_record saverOn bs (ga_batch isoOfMillis items)) (reqs + 1)
      else ⟨.articles (acc ++ ga_batch isoOfMillis items), reqs + 1,
        ga_record saverOn bs (ga_batch isoOfMillis items), saverOn⟩

/-- extractor.py lines 130-157, _get_stream_id, together with the number of
get_categories requests it causes: a truthy category name resolves through
find_category_by_name (one categories request); when nothing matches, the
diagnostic listing fetches the categories a second time and the stream id
is None.  Without a category the global stream id is formed from the user
id with no extra request. -/
def get_stream_id (user_id : String) (category : Option String)
    (cats : List Category) : Nat × Option String :=
  if py_truthy_str category then
    match find_category_by_name cats (category.getD "") with
    | some cat => (1, some cat.id)
    | none => (2, none)
  else
    (0, some ("user/" ++ user_id ++ "/category/global.all"))

/-- models.py lines 123-137, FetchOptions, restricted to the fields the
extraction pipeline reads.  output_prefix_set records the truthiness of
output_prefix (the generated file name prefix, always nonempty in the
CLI). -/
structure FetchOptions where
  days_back : Nat := 7
  start_date : Option String := none
  end_date : Option String := none
  category : Option String := none
  unread_only : Bool := false
  max_articles : Option Nat := none
  output_prefix_set : Bool := true
  output_format : String := "all"
  progressive_save : Bool := true
  quiet : Bool := false
deriving DecidableEq

/-- Observable result of one get_articles call: its outcome and the
network requests it issued, by endpoint, plus the saver interactions. -/
structure GAResult where
  outcome : GAOutcome
  profileRequests : Nat
  categoriesRequests : Nat
  streamRequests : Nat
  savedBatches : List (List Article)
  finalized : Bool
deriving DecidableEq

/-- extractor.py lines 22-128, ArticleExtractor.get_articles: fetch the
user profile (one network request, modelled by the user_id argument),
validate the date range (a ValueError propagates to the caller), resolve
the stream id (an unresolvable category returns the empty list), create
the progressive saver when enabled, then run the pagination loop over the
scripted stream responses. -/
def get_articles (options : FetchOptions) (user_id : String)
    (cats : List Category) (resps : List Response)
    (isoOfMillis : Int → String) (nowMs : Int) : GAResult :=
  match validate_date_range options.start_date options.end_date
      options.days_back nowMs with
  | .error msg =>
      { outcome := .valueError msg, profileRequests := 1,
        categoriesRequests := 0, streamRequests := 0,
        savedBatches := [], finalized := false }
  | .ok _bounds =>
      match get_stream_id user_id options.category cats with
      | (catReqs, none) =>
          { outcome := .articles [], profileRequests := 1,
            categoriesRequests := catReqs, streamRequests := 0,
            savedBatches := [], finalized := false }
      | (catReqs, some _sid) =>
          let saverOn := options.progressive_save && options.output_prefix_set
          let lr := ga_loop isoOfMillis options.max_articles saverOn resps [] [] 0
          { outcome := lr.out, profileRequests := 1,
            categoriesRequests := catReqs, streamRequests := lr.reqs,
            savedBatches := lr.batches, finalized := lr.fin }

/-! ## Concrete fixtures used by witnesses and counterexamples -/

/-- A timestamp formatter for concrete runs (its value never matters). -/
def iso0 : Int → String := fun _ => ""

/-- A remote item with every field absent. -/
def raw_empty : RawItem := {}

/-- The article built from the all-absent item. -/
def article_empty : Article := Article.from_feedly_data iso0 raw_empty

/-- The category listing of the specification example: labels Tech News
and Tech, in that order. -/
def tech_cats : List Category :=
  [⟨"id-news", "Tech News"⟩, ⟨"id-tech", "Tech"⟩]

/-- Fetch options with an explicit result cap and all other fields at
their dataclass defaults. -/
def opts_cap (n : Nat) : FetchOptions := { max_articles := some n }

/-- Fetch options with every field at its dataclass default (no cap). -/
def opts_nocap : FetchOptions := {}

/-- Fetch options carrying the reversed date range of claim C2. -/
def opts_bad_range : FetchOptions :=
  { start_date := some ("2024-02-01"), end_date := some ("2024-01-01") }

/-- A page response that carries a continuation token. -/
def page_of (p : List RawItem) : Response := Response.page p true

/-- A stream made of the given pages, each carrying a continuation token,
terminated by an empty page (the end-of-stream signal of the loop). -/
def mk_stream (pages : List (List RawItem)) : List Response :=
  pages.map page_of ++ [Response.page [] true]

/-- A remote item whose content field holds the tagged paragraph of the
word-count example. -/
def raw_hello : RawItem :=
  { content := some { content := some ("<p>Hello <b>world</b></p>") } }

/-! ## Claim C9: HTML stripping and word count -/

/-- The word count defined at models.py line 79 equals the plain token
count of the cleaned content, because Python splits the empty string into
no tokens. -/
theorem word_count_if_eq (c : String) :
    (if c = "" then 0 else (py_split_ws c).length) = (py_split_ws c).length := by
  by_cases hc : c = ""
  · subst hc; decide
  · rw [if_neg hc]

/-- Claim C9: stripping the tags of the content paragraph yields
Hello world; the article built from that content has word count 2; and
for every remote item the derived word count equals the number of
whitespace-separated tokens of the cleaned content (hence 0 when the
cleaned content is empty). -/
theorem strip_and_word_count :
    strip_html_tags ("<p>Hello <b>world</b></p>") = "Hello world" ∧
    (∀ isoOfMillis : Int → String,
      (Article.from_feedly_data isoOfMillis raw_hello).word_count = 2) ∧
    (∀ (isoOfMillis : Int → String) (raw : RawItem),
      (Article.from_feedly_data isoOfMillis raw).word_count =
        (py_split_ws (Article.from_feedly_data isoOfMillis raw).content).length) := by
  refine ⟨by decide, fun isoOfMillis => rfl, fun isoOfMillis raw => ?_⟩
  exact word_count_if_eq
    (strip_html_tags ((raw.content.bind ContentObj.content).getD ""))

/-! ## Claim C8: one manual retry after a 429 -/

/-- What the caller of _make_request observes for the re-issued request. -/
def retry_result : ReqOut → MROut
  | .success => .ok 2
  | .httpFail s => .raised s

/-- Claim C8: a first-class 429 failure causes exactly one
RATE_LIMIT_DELAY wait and exactly one re-issue of the request (two
session attempts in total); the second outcome, success or failure, is
passed through to the caller, so a second failure propagates and no
further manual retry happens. -/
theorem make_request_429_single_retry (second : ReqOut) (rest : List ReqOut) :
    make_request (ReqOut.httpFail 429 :: second :: rest) =
      ⟨retry_result second, 2, [RATE_LIMIT_DELAY]⟩ := by
  cases second <;> rfl

/-! ## Claim C6: to_dict matches the declared attributes -/

/-- Claim C6: for every remote item, the export dictionary of the
constructed article lists exactly the 19 declared attribute names, in
declaration order and without duplicates, and maps each name to that
attribute of the article. -/
theorem to_dict_matches_attributes (isoOfMillis : Int → String) (raw : RawItem) :
    ((Article.from_feedly_data isoOfMillis raw).to_dict).map Prod.fst =
        article_field_names ∧
    (Article.from_feedly_data isoOfMillis raw).to_dict =
      article_field_names.map
        (fun n => (n, (Article.from_feedly_data isoOfMillis raw).attr n)) ∧
    article_field_names.length = 19 ∧ article_field_names.Nodup := by
  exact ⟨rfl, rfl, rfl, by decide⟩

/-! ## Claim C1: category resolution on the Tech listing -/

/-- Claim C1, counterexample: on the listing with labels Tech News and
Tech, the query tech is an exact case-insensitive match of the label
Tech, so find_category_by_name returns the Tech category and not the
first substring match Tech News that the claim predicts. -/
theorem find_category_tech_cex :
    find_category_by_name tech_cats ("tech") = some ⟨"id-tech", "Tech"⟩ ∧
    find_category_by_name tech_cats ("tech") ≠ some ⟨"id-news", "Tech News"⟩ := by
  decide

/-- Claim C1, amended: on the listing with labels Tech News and Tech, the
query tech matches the label Tech exactly (case-insensitively), so the
exact-match rule fires and the Tech category is returned; only when no
label matches exactly does the function fall back to the first
case-insensitive substring match in listing order. -/
theorem find_category_exact_preferred :
    find_category_by_name tech_cats ("tech") = some ⟨"id-tech", "Tech"⟩ ∧
    ∀ (cats : List Category) (name : String),
      (∀ cat ∈ cats, ¬ py_lower name = py_lower cat.label) →
      find_category_by_name cats name =
        cats.find? (fun cat => str_in (py_lower name) (py_lower cat.label)) := by
  refine ⟨by decide, fun cats name h => ?_⟩
  unfold find_category_by_name
  have hnone : cats.find? (fun cat => py_lower name == py_lower cat.label) = none := by
    rw [List.find?_eq_none]
    intro cat hcat
    simpa using h cat hcat
  rw [hnone]

/-- Claim C1, witness: the query ech matches no label of the Tech listing
exactly, so the fallback substring search decides the result. -/
theorem find_category_exact_preferred_witness :
    find_category_by_name tech_cats ("ech") =
      tech_cats.find? (fun cat => str_in (py_lower ("ech")) (py_lower cat.label)) :=
  (find_category_exact_preferred).2 tech_cats ("ech") (by decide)

/-! ## Claim C2: reversed date range -/

/-- Claim C2, counterexample: with start date 2024-02-01 and end date
2024-01-01 the pipeline does raise the ordering error, but only after the
user-profile fetch: at the moment of failure one network request (the
profile request issued at extractor.py line 27) has already been made, so
the failure does not precede every network request. -/
theorem date_range_error_after_profile :
    (get_articles opts_bad_range ("u") [] [] iso0 0).outcome =
      GAOutcome.valueError ("End date must be after start date") ∧
    (get_articles opts_bad_range ("u") [] [] iso0 0).profileRequests ≠ 0 := by
  exact ⟨by decide, by decide⟩

/-- Claim C2, amended: for start-date 2024-02-01 and end-date 2024-01-01
the extraction pipeline fails with the explicit ordering error End date
must be after start date after the profile request but before any
stream-content request is issued, and no batch is ever saved. -/
theorem date_range_error_before_stream (user_id : String) (cats : List Category)
    (resps : List Response) (isoOfMillis : Int → String) (nowMs : Int) :
    (get_articles opts_bad_range user_id cats resps isoOfMillis nowMs).outcome =
      GAOutcome.valueError ("End date must be after start date") ∧
    (get_articles opts_bad_range user_id cats resps isoOfMillis nowMs).streamRequests = 0 ∧
    (get_articles opts_bad_range user_id cats resps isoOfMillis nowMs).savedBatches = [] := by
  exact ⟨rfl, rfl, rfl⟩

/-! ## Progressive-saver lemmas -/

/-- Folding save_batch over batches that are all empty changes nothing,
because save_batch returns immediately on an empty batch. -/
theorem foldl_save_batch_all_empty (batches : List (List Article)) (st : SaverState)
    (h : ∀ b ∈ batches, b = []) : batches.foldl save_batch st = st := by
  induction batches generalizing st with
  | nil => rfl
  | cons b bs ih =>
      have hb : b = [] := h b (List.mem_cons_self b bs)
      subst hb
      rw [List.foldl_cons]
      have hstep : save_batch st [] = st := by simp [save_batch]
      rw [hstep]
      exact ih st (fun x hx => h x (List.mem_cons_of_mem _ hx))

/-- Distributing sep_objs over an append. -/
theorem sep_objs_append (l₁ l₂ : List Article) :
    sep_objs (l₁ ++ l₂) = sep_objs l₁ ++ sep_objs l₂ := by
  simp [sep_objs]

/-- From index one on, every article of a batch is preceded by a
separator, whatever saved_count was. -/
theorem append_json_go_pos (saved : Nat) (articles : List Article) :
    ∀ i : Nat, append_json_go saved (i + 1) articles = sep_objs articles := by
  induction articles with
  | nil => intro i; rfl
  | cons a rest ih =>
      intro i
      simp only [append_json_go, sep_objs, List.map_cons, List.flatten_cons]
      rw [ih (i + 1)]
      simp [sep_objs]

/-- Appending a nonempty batch to a stream that already holds the
comma-separated objects of done extends it to the comma-separated objects
of done plus the batch. -/
theorem with_seps_extend (done b : List Article) (hb : b ≠ []) :
    with_seps done ++ append_json done.length b = with_seps (done ++ b) := by
  cases b with
  | nil => exact absurd rfl hb
  | cons a rest =>
      cases done with
      | nil =>
          simp only [with_seps, append_json, append_json_go, List.length_nil,
            List.nil_append]
          rw [append_json_go_pos (0 : Nat) rest (0 : Nat)]
          simp [with_seps]
      | cons d ds =>
          simp only [with_seps, append_json, append_json_go, List.length_cons,
            List.cons_append]
          rw [append_json_go_pos (ds.length + 1) rest (0 : Nat)]
          simp [sep_objs_append, sep_objs]

/-- Invariant of the progressive JSON stream: starting from a state that
holds the opening bracket plus the comma-separated objects of done, with
saved_count equal to the number of objects written, folding save_batch
over any batches yields the opening bracket plus the comma-separated
objects of done plus all batch contents, in order. -/
theorem foldl_save_batch_json (batches : List (List Article)) :
    ∀ done : List Article,
      batches.foldl save_batch
        ⟨true, JTok.arrStart :: with_seps done, done.length⟩ =
      ⟨true, JTok.arrStart :: with_seps (done ++ batches.flatten),
        (done ++ batches.flatten).length⟩ := by
  induction batches with
  | nil => intro done; simp
  | cons b bs ih =>
      intro done
      rw [List.foldl_cons]
      by_cases hb : b = []
      · subst hb
        have hstep : save_batch ⟨true, JTok.arrStart :: with_seps done, done.length⟩
            ([] : List Article) = ⟨true, JTok.arrStart :: with_seps done, done.length⟩ := by
          simp [save_batch]
        rw [hstep, ih done]
        simp
      · have hstep : save_batch ⟨true, JTok.arrStart :: with_seps done, done.length⟩ b =
            ⟨true, JTok.arrStart :: with_seps (done ++ b), (done ++ b).length⟩ := by
          simp only [save_batch, if_neg hb]
          simp only [List.cons_append]
          rw [with_seps_extend done b hb]
          simp
        rw [hstep, ih (done ++ b)]
        simp

/-! ## Claim C10: finalize with nothing saved -/

/-- Claim C10: when no batch was ever saved (here: every save_batch call,
if any, received an empty batch, so saved_count is 0), finalize skips the
closing bracket and the JSON file holds exactly the opening bracket
written at initialization, which is not the token stream of any
well-formed JSON array. -/
theorem finalize_unsaved_leaves_open_bracket (batches : List (List Article))
    (h : ∀ b ∈ batches, b = []) :
    (saver_finalize (batches.foldl save_batch (saver_init ("json")))).json_file =
      [JTok.arrStart] ∧
    ∀ articles : List Article,
      (saver_finalize (batches.foldl save_batch (saver_init ("json")))).json_file ≠
        wf_json_array articles := by
  rw [foldl_save_batch_all_empty batches _ h]
  refine ⟨by decide, fun articles hEq => ?_⟩
  have hlen := congrArg List.length hEq
  simp [saver_finalize, saver_init, wf_json_array] at hlen

/-- Claim C10, witness: a run that never calls save_batch. -/
theorem finalize_unsaved_witness :
    (saver_finalize (([] : List (List Article)).foldl save_batch
        (saver_init ("json")))).json_file = [JTok.arrStart] ∧
    ∀ articles : List Article,
      (saver_finalize (([] : List (List Article)).foldl save_batch
          (saver_init ("json")))).json_file ≠ wf_json_array articles :=
  finalize_unsaved_leaves_open_bracket [] (by simp)

/-! ## Claim C5: progressive JSON output for batches of sizes 2, 3, 0, 1 -/

/-- Claim C5: saving batches of sizes 2, 3, 0 and 1 and then finalizing
produces exactly the token stream of a well-formed JSON array holding the
6 articles in order: the empty batch contributes nothing, no separator
precedes the first object and none follows the last. -/
theorem progressive_json_batches (b1 b2 b3 b4 : List Article)
    (h1 : b1.length = 2) (h2 : b2.length = 3) (h3 : b3.length = 0)
    (h4 : b4.length = 1) :
    (saver_finalize ([b1, b2, b3, b4].foldl save_batch
        (saver_init ("json")))).json_file =
      wf_json_array (b1 ++ b2 ++ b3 ++ b4) ∧
    (b1 ++ b2 ++ b3 ++ b4).length = 6 := by
  have hinit : saver_init ("json") =
      ⟨true, JTok.arrStart :: with_seps [], ([] : List Article).length⟩ := rfl
  rw [hinit, foldl_save_batch_json [b1, b2, b3, b4] []]
  have hflat : ([b1, b2, b3, b4] : List (List Article)).flatten =
      b1 ++ b2 ++ b3 ++ b4 := by
    simp [List.append_assoc]
  have hlen : (([] : List Article) ++
      ([b1, b2, b3, b4] : List (List Article)).flatten).length = 6 := by
    simp [h1, h2, h3, h4]
  constructor
  · rw [saver_finalize]
    rw [hlen]
    simp only [Bool.true_and, decide_eq_true_eq]
    rw [if_pos (by omega : 0 < 6)]
    simp only [List.nil_append, wf_json_array, List.cons_append]
    rw [hflat]
  · calc (b1 ++ b2 ++ b3 ++ b4).length
        = (([] : List Article) ++
            ([b1, b2, b3, b4] : List (List Article)).flatten).length := by
          rw [hflat]
          simp
      _ = 6 := hlen

/-- Claim C5, witness: concrete batches of sizes 2, 3, 0 and 1. -/
theorem progressive_json_batches_witness :
    (saver_finalize ([[article_empty, article_empty],
        [article_empty, article_empty, article_empty], [],
        [article_empty]].foldl save_batch (saver_init ("json")))).json_file =
      wf_json_array ([article_empty, article_empty] ++
        [article_empty, article_empty, article_empty] ++ [] ++ [article_empty]) ∧
    ([article_empty, article_empty] ++
        [article_empty, article_empty, article_empty] ++ [] ++
        [article_empty]).length = 6 :=
  progressive_json_batches [article_empty, article_empty]
    [article_empty, article_empty, article_empty] [] [article_empty]
    rfl rfl rfl rfl

/-! ## Pagination-loop lemmas -/

/-- Unfolding equation of ga_batch, for rewriting in both directions. -/
theorem ga_batch_eq (isoOfMillis : Int → String) (items : List RawItem) :
    ga_batch isoOfMillis items = items.map (Article.from_feedly_data isoOfMillis) :=
  rfl

/-- With a positive explicit cap, whenever the loop returns a list at all
and starts below the cap, the list never exceeds the cap: the cap check
runs before the safety-ceiling check on every page, and the only branch
that can overshoot truncates to exactly the cap. -/
theorem ga_loop_le_cap (isoOfMillis : Int → String) (N : Nat) (saverOn : Bool)
    (hN0 : 0 < N) :
    ∀ (resps : List Response) (acc : List Article) (bs : List (List Article))
      (reqs : Nat) (l : List Article),
      acc.length < N →
      (ga_loop isoOfMillis (some N) saverOn resps acc bs reqs).out =
        GAOutcome.articles l →
      l.length ≤ N := by
  intro resps
  induction resps with
  | nil =>
      intro acc bs reqs l hacc h
      simp [ga_loop] at h
  | cons r rest ih =>
      intro acc bs reqs l hacc h
      cases r with
      | httpErr s =>
          simp only [ga_loop] at h
          split_ifs at h <;> simp_all <;> omega
      | page items cont =>
          simp only [ga_loop] at h
          by_cases hi : items = []
          · rw [if_pos hi] at h
            simp only [LoopRes.mk.injEq, GAOutcome.articles.injEq] at h
            subst h
            omega
          · rw [if_neg hi] at h
            by_cases hcap :
                cap_hit (some N) (acc ++ ga_batch isoOfMillis items).length = true
            · rw [if_pos hcap] at h
              simp only [LoopRes.mk.injEq, GAOutcome.articles.injEq] at h
              subst h
              simp only [Option.getD_some, List.length_take]
              omega
            · rw [if_neg hcap] at h
              have hlt : (acc ++ ga_batch isoOfMillis items).length < N := by
                simp only [cap_hit, hN0, decide_eq_true_eq, Bool.and_eq_true,
                  decide_eq_true_iff, not_and, not_le] at hcap
                exact hcap trivial
              by_cases hsafe :
                  SAFE_ARTICLE_LIMIT ≤ (acc ++ ga_batch isoOfMillis items).length
              · rw [if_pos hsafe] at h
                simp only [LoopRes.mk.injEq, GAOutcome.articles.injEq] at h
                subst h
                omega
              · rw [if_neg hsafe] at h
                by_cases hc : cont = true
                · rw [if_pos hc] at h
                  exact ih _ _ _ _ hlt h
                · rw [if_neg hc] at h
                  simp only [LoopRes.mk.injEq, GAOutcome.articles.injEq] at h
                  subst h
                  omega

/-- With a positive cap at most the safety ceiling, the loop over a
stream of nonempty pages (mk_stream) returns exactly the first N articles
of the whole stream, whatever was already accumulated (as long as it is
below the cap): the cap fires before the ceiling can, truncation yields
exactly N, and exhaustion yields everything. -/
theorem ga_loop_cap_exact (isoOfMillis : Int → String) (N : Nat) (saverOn : Bool)
    (hN0 : 0 < N) (hNsafe : N ≤ SAFE_ARTICLE_LIMIT) :
    ∀ (pages : List (List RawItem)) (acc : List Article)
      (bs : List (List Article)) (reqs : Nat),
      (∀ p ∈ pages, p ≠ []) → acc.length < N →
      (ga_loop isoOfMillis (some N) saverOn (mk_stream pages) acc bs reqs).out =
        GAOutcome.articles
          ((acc ++ pages.flatten.map (Article.from_feedly_data isoOfMillis)).take N) := by
  intro pages
  induction pages with
  | nil =>
      intro acc bs reqs _ hacc
      show (ga_loop isoOfMillis (some N) saverOn [Response.page [] true]
          acc bs reqs).out = _
      rw [List.flatten_nil, List.map_nil, List.append_nil,
        List.take_of_length_le (Nat.le_of_lt hacc)]
      simp [ga_loop]
  | cons p ps ih =>
      intro acc bs reqs hne hacc
      have hp : p ≠ [] := hne p (List.mem_cons_self p ps)
      show (ga_loop isoOfMillis (some N) saverOn
          (Response.page p true :: mk_stream ps) acc bs reqs).out = _
      rw [List.flatten_cons, List.map_append, ← List.append_assoc]
      simp only [← ga_batch_eq]
      simp only [ga_loop]
      rw [if_neg hp]
      by_cases hcap : N ≤ (acc ++ ga_batch isoOfMillis p).length
      · have hch : cap_hit (some N) (acc ++ ga_batch isoOfMillis p).length = true := by
          simp only [cap_hit, Bool.and_eq_true, decide_eq_true_iff]
          exact ⟨hN0, hcap⟩
        rw [if_pos hch]
        have hz : N - (acc ++ ga_batch isoOfMillis p).length = 0 := by omega
        show GAOutcome.articles _ = _
        conv_rhs => rw [List.take_append_eq_append_take]
        rw [hz, List.take_zero, List.append_nil]
        rfl
      · have hch : ¬ cap_hit (some N) (acc ++ ga_batch isoOfMillis p).length = true := by
          simp only [cap_hit, Bool.and_eq_true, decide_eq_true_iff]
          intro hand
          exact hcap hand.2
        rw [if_neg hch]
        have hsafe : ¬ SAFE_ARTICLE_LIMIT ≤ (acc ++ ga_batch isoOfMillis p).length := by
          omega
        rw [if_neg hsafe]
        rw [if_pos trivial]
        have hrec := ih (acc ++ ga_batch isoOfMillis p)
          (ga_record saverOn bs (ga_batch isoOfMillis p)) (reqs + 1)
          (fun q hq => hne q (List.mem_cons_of_mem _ hq)) (by omega)
        simpa [ga_batch] using hrec

/-! ## Claim C3: result cap -/

/-- Claim C3, counterexample: a result cap of 0 is Python-falsy, so the
cap check of extractor.py line 95 never fires: over a stream holding one
matching item, get_articles with max_articles = 0 returns one article,
although min(0, 1) = 0; the cap is exceeded. -/
theorem get_articles_cap_zero_cex :
    (get_articles (opts_cap 0) ("u") [] (mk_stream [[raw_empty]]) iso0 0).outcome =
      GAOutcome.articles [article_empty] ∧
    ¬ (1 : Nat) = min 0 1 := by
  exact ⟨rfl, by decide⟩

/-- Claim C3, amended: for a positive result cap N, the returned list
never exceeds N (over any stream whatsoever); and when N is at most the
safety ceiling SAFE_ARTICLE_LIMIT, a stream of nonempty pages holding
available matching items yields exactly min(N, available) articles.  (A
cap of zero is ignored, and a cap above the ceiling can be cut short by
the ceiling.) -/
theorem get_articles_cap (N : Nat) (pages : List (List RawItem))
    (user_id : String) (cats : List Category) (isoOfMillis : Int → String)
    (nowMs : Int) (hN0 : 1 ≤ N) (hpages : ∀ p ∈ pages, p ≠ []) :
    (∀ (resps : List Response) (l : List Article),
      (get_articles (opts_cap N) user_id cats resps isoOfMillis nowMs).outcome =
        GAOutcome.articles l → l.length ≤ N) ∧
    (N ≤ SAFE_ARTICLE_LIMIT →
      ∃ l, (get_articles (opts_cap N) user_id cats (mk_stream pages) isoOfMillis
          nowMs).outcome = GAOutcome.articles l ∧
        l.length = min N pages.flatten.length) := by
  constructor
  · intro resps l h
    exact ga_loop_le_cap isoOfMillis N true hN0 resps [] [] 0 l
      (by simpa using hN0) h
  · intro hNsafe
    refine ⟨(pages.flatten.map (Article.from_feedly_data isoOfMillis)).take N,
      ?_, ?_⟩
    · exact ga_loop_cap_exact isoOfMillis N true hN0 hNsafe pages [] [] 0 hpages
        (by simpa using hN0)
    · simp [List.length_take, Function.comp_def, List.length_map]

/-- Claim C3, witness: cap 1 over a one-page, one-item stream. -/
theorem get_articles_cap_witness :
    (∀ (resps : List Response) (l : List Article),
      (get_articles (opts_cap 1) ("u") [] resps iso0 0).outcome =
        GAOutcome.articles l → l.length ≤ 1) ∧
    (1 ≤ SAFE_ARTICLE_LIMIT →
      ∃ l, (get_articles (opts_cap 1) ("u") [] (mk_stream [[raw_empty]]) iso0
          0).outcome = GAOutcome.articles l ∧
        l.length = min 1 ([[raw_empty]] : List (List RawItem)).flatten.length) :=
  get_articles_cap 1 [[raw_empty]] ("u") [] iso0 0 (by decide) (by decide)

/-- ga_batch distributes over appending pages. -/
theorem ga_batch_append (isoOfMillis : Int → String) (l₁ l₂ : List RawItem) :
    ga_batch isoOfMillis (l₁ ++ l₂) =
      ga_batch isoOfMillis l₁ ++ ga_batch isoOfMillis l₂ := by
  simp [ga_batch]

/-- The length of a converted batch is the page size. -/
theorem ga_batch_length (isoOfMillis : Int → String) (items : List RawItem) :
    (ga_batch isoOfMillis items).length = items.length := by
  simp [ga_batch]

/-- Without an explicit cap, over nonempty pages that all carry a
continuation token (whatever responses follow them), as soon as the
accumulated count can reach the safety ceiling the loop stops at the
first page k on which the accumulator reaches SAFE_ARTICLE_LIMIT: it
returns the accumulator plus the first k pages untruncated, issues
exactly k requests, and on no earlier prefix had it reached the
ceiling. -/
theorem ga_loop_safe_stop (isoOfMillis : Int → String) (saverOn : Bool)
    (rest : List Response) :
    ∀ (pages : List (List RawItem)) (acc : List Article)
      (bs : List (List Article)) (reqs : Nat),
      (∀ p ∈ pages, p ≠ []) →
      acc.length < SAFE_ARTICLE_LIMIT →
      SAFE_ARTICLE_LIMIT ≤ acc.length + pages.flatten.length →
      ∃ k, 0 < k ∧ k ≤ pages.length ∧
        (ga_loop isoOfMillis none saverOn (pages.map page_of ++ rest)
            acc bs reqs).out =
          GAOutcome.articles (acc ++ ga_batch isoOfMillis (pages.take k).flatten) ∧
        (ga_loop isoOfMillis none saverOn (pages.map page_of ++ rest)
            acc bs reqs).reqs = reqs + k ∧
        SAFE_ARTICLE_LIMIT ≤ acc.length + ((pages.take k).flatten).length ∧
        ∀ j < k, acc.length + ((pages.take j).flatten).length <
          SAFE_ARTICLE_LIMIT := by
  intro pages
  induction pages with
  | nil =>
      intro acc bs reqs _ hacc htot
      simp only [List.flatten_nil, List.length_nil] at htot
      omega
  | cons p ps ih =>
      intro acc bs reqs hne hacc htot
      have hp : p ≠ [] := hne p (List.mem_cons_self p ps)
      have hlen : (acc ++ ga_batch isoOfMillis p).length =
          acc.length + p.length := by
        simp [ga_batch]
      have hstep : (p :: ps).map page_of ++ rest =
          Response.page p true :: (ps.map page_of ++ rest) := by
        simp [page_of]
      rw [hstep]
      simp only [ga_loop]
      rw [if_neg hp]
      simp only [cap_hit, Bool.false_eq_true, if_false]
      by_cases hsafe : SAFE_ARTICLE_LIMIT ≤ (acc ++ ga_batch isoOfMillis p).length
      · rw [if_pos hsafe]
        have h1 : (List.take 1 (p :: ps)).flatten = p := by
          rw [show List.take 1 (p :: ps) = [p] from rfl]
          simp
        refine ⟨1, Nat.one_pos, by simp, ?_, ?_, ?_, ?_⟩
        · show GAOutcome.articles _ = _
          rw [h1]
        · rfl
        · rw [h1]
          omega
        · intro j hj
          have hj0 : j = 0 := by omega
          subst hj0
          simpa using hacc
      · rw [if_neg hsafe]
        rw [if_pos trivial]
        obtain ⟨k, hk0, hkle, hout, hreqs, hreach, hmin⟩ :=
          ih (acc ++ ga_batch isoOfMillis p)
            (ga_record saverOn bs (ga_batch isoOfMillis p)) (reqs + 1)
            (fun q hq => hne q (List.mem_cons_of_mem _ hq))
            (by omega)
            (by
              simp only [List.flatten_cons, List.length_append] at htot
              omega)
        refine ⟨k + 1, Nat.succ_pos k, by simpa using hkle, ?_, ?_, ?_, ?_⟩
        · rw [List.take_succ_cons, List.flatten_cons, ga_batch_append,
            ← List.append_assoc]
          exact hout
        · rw [hreqs]
          omega
        · simp only [List.take_succ_cons, List.flatten_cons, List.length_append]
          rw [hlen] at hreach
          omega
        · intro j hj
          cases j with
          | zero => simpa using hacc
          | succ j' =>
              have := hmin j' (by omega)
              rw [hlen] at this
              simp only [List.take_succ_cons, List.flatten_cons,
                List.length_append]
              omega

/-! ## Claim C4: safety ceiling -/

/-- Claim C4: without an explicit cap, over nonempty pages that all carry
a continuation token and hold enough items to reach the ceiling, the run
stops at the first page k on which the accumulated count reaches
SAFE_ARTICLE_LIMIT: exactly k stream requests are issued no matter what
responses would follow, and the accumulated list is returned without
truncation. -/
theorem get_articles_safe_limit (pages : List (List RawItem))
    (rest : List Response) (user_id : String) (cats : List Category)
    (isoOfMillis : Int → String) (nowMs : Int)
    (hpages : ∀ p ∈ pages, p ≠ [])
    (htot : SAFE_ARTICLE_LIMIT ≤ pages.flatten.length) :
    ∃ k, 0 < k ∧ k ≤ pages.length ∧
      (get_articles opts_nocap user_id cats (pages.map page_of ++ rest)
          isoOfMillis nowMs).outcome =
        GAOutcome.articles (ga_batch isoOfMillis (pages.take k).flatten) ∧
      (get_articles opts_nocap user_id cats (pages.map page_of ++ rest)
          isoOfMillis nowMs).streamRequests = k ∧
      SAFE_ARTICLE_LIMIT ≤ ((pages.take k).flatten).length ∧
      ∀ j < k, ((pages.take j).flatten).length < SAFE_ARTICLE_LIMIT := by
  obtain ⟨k, h0, hle, hout, hreqs, hreach, hmin⟩ :=
    ga_loop_safe_stop isoOfMillis true rest pages [] [] 0 hpages (by decide)
      (by simpa using htot)
  refine ⟨k, h0, hle, ?_, ?_, by simpa using hreach, by simpa using hmin⟩
  · have h := hout
    rw [List.nil_append] at h
    exact h
  · have h := hreqs
    rw [Nat.zero_add] at h
    exact h

/-- Claim C4, witness: a single page of exactly SAFE_ARTICLE_LIMIT items
with a continuation token and no scripted follow-up. -/
theorem get_articles_safe_limit_witness :
    ∃ k, 0 < k ∧
      k ≤ ([List.replicate 5000 raw_empty] : List (List RawItem)).length ∧
      (get_articles opts_nocap ("u") []
          (([List.replicate 5000 raw_empty] : List (List RawItem)).map page_of ++ [])
          iso0 0).outcome =
        GAOutcome.articles (ga_batch iso0
          (([List.replicate 5000 raw_empty] : List (List RawItem)).take k).flatten) ∧
      (get_articles opts_nocap ("u") []
          (([List.replicate 5000 raw_empty] : List (List RawItem)).map page_of ++ [])
          iso0 0).streamRequests = k ∧
      SAFE_ARTICLE_LIMIT ≤
        ((([List.replicate 5000 raw_empty] : List (List RawItem)).take k).flatten).length ∧
      ∀ j < k,
        ((([List.replicate 5000 raw_empty] : List (List RawItem)).take j).flatten).length <
          SAFE_ARTICLE_LIMIT :=
  get_articles_safe_limit [List.replicate 5000 raw_empty] [] ("u") [] iso0 0
    (by
      intro p hp
      rw [List.mem_singleton] at hp
      subst hp
      exact List.ne_nil_of_length_pos
        (by rw [List.length_replicate]; decide))
    (by
      rw [List.flatten_cons, List.flatten_nil, List.append_nil,
        List.length_replicate]
      decide)

/-! ## Claim C7: HTTP error handling during pagination -/

/-- Over nonempty pages that stay below the safety ceiling, followed by
an HTTPError response: a 401 or 429 aborts the loop at once and yields
exactly the articles accumulated so far, while any other status is
re-raised; in every case the error response is the last request made. -/
theorem ga_loop_error_abort (isoOfMillis : Int → String) (saverOn : Bool)
    (s : Nat) (rest : List Response) :
    ∀ (pages : List (List RawItem)) (acc : List Article)
      (bs : List (List Article)) (reqs : Nat),
      (∀ p ∈ pages, p ≠ []) →
      acc.length + pages.flatten.length < SAFE_ARTICLE_LIMIT →
      (ga_loop isoOfMillis none saverOn
          (pages.map page_of ++ Response.httpErr s :: rest) acc bs reqs).out =
        (if s = 401 ∨ s = 429 then
          GAOutcome.articles (acc ++ ga_batch isoOfMillis pages.flatten)
        else GAOutcome.httpRaised s) ∧
      (ga_loop isoOfMillis none saverOn
          (pages.map page_of ++ Response.httpErr s :: rest) acc bs reqs).reqs =
        reqs + pages.length + 1 := by
  intro pages
  induction pages with
  | nil =>
      intro acc bs reqs _ hlt
      simp only [List.map_nil, List.nil_append, List.flatten_nil,
        List.length_nil]
      constructor
      · simp only [ga_loop]
        by_cases h1 : s = 401
        · subst h1
          simp [ga_batch]
        · by_cases h2 : s = 429
          · subst h2
            simp [ga_batch]
          · simp [h1, h2]
      · simp only [ga_loop]
        split_ifs <;> rfl
  | cons p ps ih =>
      intro acc bs reqs hne hlt
      have hp : p ≠ [] := hne p (List.mem_cons_self p ps)
      have hstep : (p :: ps).map page_of ++ Response.httpErr s :: rest =
          Response.page p true ::
            (ps.map page_of ++ Response.httpErr s :: rest) := by
        simp [page_of]
      rw [hstep]
      have hlen : (acc ++ ga_batch isoOfMillis p).length =
          acc.length + p.length := by
        simp [ga_batch]
      simp only [ga_loop]
      rw [if_neg hp]
      simp only [cap_hit, Bool.false_eq_true, if_false]
      have hsafe : ¬ SAFE_ARTICLE_LIMIT ≤ (acc ++ ga_batch isoOfMillis p).length := by
        simp only [List.flatten_cons, List.length_append] at hlt
        omega
      rw [if_neg hsafe, if_pos trivial]
      obtain ⟨hout, hreqs⟩ :=
        ih (acc ++ ga_batch isoOfMillis p)
          (ga_record saverOn bs (ga_batch isoOfMillis p)) (reqs + 1)
          (fun q hq => hne q (List.mem_cons_of_mem _ hq))
          (by
            simp only [List.flatten_cons, List.length_append] at hlt
            omega)
      constructor
      · rw [hout]
        by_cases h12 : s = 401 ∨ s = 429
        · rw [if_pos h12, if_pos h12, List.flatten_cons, ga_batch_append,
            ← List.append_assoc]
        · rw [if_neg h12, if_neg h12]
      · rw [hreqs]
        simp only [List.length_cons]
        omega

/-- Claim C7: during pagination an HTTP 401 aborts the loop at once and
get_articles returns the accumulated articles; an HTTP 429 likewise
aborts at once returning the partial accumulation; any other HTTP error
status propagates to the caller uncaught. -/
theorem get_articles_http_errors (pages : List (List RawItem))
    (rest : List Response) (user_id : String) (cats : List Category)
    (isoOfMillis : Int → String) (nowMs : Int) (s : Nat)
    (hpages : ∀ p ∈ pages, p ≠ [])
    (hlt : pages.flatten.length < SAFE_ARTICLE_LIMIT) :
    (get_articles opts_nocap user_id cats
        (pages.map page_of ++ Response.httpErr 401 :: rest)
        isoOfMillis nowMs).outcome =
      GAOutcome.articles (ga_batch isoOfMillis pages.flatten) ∧
    (get_articles opts_nocap user_id cats
        (pages.map page_of ++ Response.httpErr 429 :: rest)
        isoOfMillis nowMs).outcome =
      GAOutcome.articles (ga_batch isoOfMillis pages.flatten) ∧
    (s ≠ 401 → s ≠ 429 →
      (get_articles opts_nocap user_id cats
          (pages.map page_of ++ Response.httpErr s :: rest)
          isoOfMillis nowMs).outcome = GAOutcome.httpRaised s) := by
  have hbase : ∀ t : Nat,
      (ga_loop isoOfMillis none true
          (pages.map page_of ++ Response.httpErr t :: rest) [] [] 0).out =
        (if t = 401 ∨ t = 429 then
          GAOutcome.articles (([] : List Article) ++
            ga_batch isoOfMillis pages.flatten)
        else GAOutcome.httpRaised t) :=
    fun t => (ga_loop_error_abort isoOfMillis true t rest pages [] [] 0 hpages
      (by simpa using hlt)).1
  refine ⟨?_, ?_, ?_⟩
  · have h := hbase 401
    rw [if_pos (Or.inl rfl), List.nil_append] at h
    exact h
  · have h := hbase 429
    rw [if_pos (Or.inr rfl), List.nil_append] at h
    exact h
  · intro h1 h2
    have h := hbase s
    rw [if_neg (by tauto)] at h
    exact h

/-- Claim C7, witness: one one-item page followed by the error response,
checked for the statuses 401, 429 and 500. -/
theorem get_articles_http_errors_witness :
    (get_articles opts_nocap ("u") []
        (([[raw_empty]] : List (List RawItem)).map page_of ++
          Response.httpErr 401 :: []) iso0 0).outcome =
      GAOutcome.articles (ga_batch iso0
        ([[raw_empty]] : List (List RawItem)).flatten) ∧
    (get_articles opts_nocap ("u") []
        (([[raw_empty]] : List (List RawItem)).map page_of ++
          Response.httpErr 429 :: []) iso0 0).outcome =
      GAOutcome.articles (ga_batch iso0
        ([[raw_empty]] : List (List RawItem)).flatten) ∧
    ((500 : Nat) ≠ 401 → (500 : Nat) ≠ 429 →
      (get_articles opts_nocap ("u") []
          (([[raw_empty]] : List (List RawItem)).map page_of ++
            Response.httpErr 500 :: []) iso0 0).outcome =
        GAOutcome.httpRaised 500) :=
  get_articles_http_errors [[raw_empty]] [] ("u") [] iso0 0 500
    (by decide) (by decide)

/-! ## Additional closed witnesses -/

/-- Claim C2, witness: concrete run of the amended statement. -/
theorem date_range_error_before_stream_witness :
    (get_articles opts_bad_range ("u") [] [] iso0 0).outcome =
      GAOutcome.valueError ("End date must be after start date") ∧
    (get_articles opts_bad_range ("u") [] [] iso0 0).streamRequests = 0 ∧
    (get_articles opts_bad_range ("u") [] [] iso0 0).savedBatches = [] :=
  date_range_error_before_stream ("u") [] [] iso0 0

/-- Claim C6, witness: the all-absent remote item. -/
theorem to_dict_matches_attributes_witness :
    ((Article.from_feedly_data iso0 raw_empty).to_dict).map Prod.fst =
        article_field_names ∧
    (Article.from_feedly_data iso0 raw_empty).to_dict =
      article_field_names.map
        (fun n => (n, (Article.from_feedly_data iso0 raw_empty).attr n)) ∧
    article_field_names.length = 19 ∧ article_field_names.Nodup :=
  to_dict_matches_attributes iso0 raw_empty

/-- Claim C8, witness: a 429 followed by a success. -/
theorem make_request_429_single_retry_witness :
    make_request (ReqOut.httpFail 429 :: ReqOut.success :: []) =
      ⟨retry_result ReqOut.success, 2, [RATE_LIMIT_DELAY]⟩ :=
  make_request_429_single_retry ReqOut.success []
